import Mathlib

/-!
Verification of the failover-aware provider selection core and the router
middleware of the claude-code-router repository.

The failover core (class FailoverManager) keeps a map from a scope key
(session-derived or global) to a FailoverConfig record holding a snapshot of
the candidate providers, a rotation index, the time of the last retryable
failure, and the count of consecutive retryable failures.  The router
middleware resolves router configuration values (string, string array, or
absent) to a concrete model, with a fallback cascade on errors.

Mutable instance state is modelled by explicit state passing: the Map of the
source becomes an association list, Date.now() becomes an explicit `now`
argument, and thrown exceptions become `Except.error`.
-/

/-- Interface FailoverConfig of the source: providers snapshot, rotation
index, time of last failure (ms), and consecutive failure count. -/
structure FailoverConfig where
  providers : List String
  currentIndex : Nat
  lastFailureTime : Nat
  failureCount : Nat
deriving DecidableEq

/-- The failoverConfigs Map of FailoverManager, as an association list. -/
abbrev FailoverState := List (String × FailoverConfig)

/-- Map.get of the source: first binding of the key, if any. -/
def lookupFC : FailoverState → String → Option FailoverConfig
  | [], _ => none
  | (k', c) :: rest, k => if k' == k then some c else lookupFC rest k

/-- Map.delete of the source: drop every binding of the key. -/
def eraseFC (st : FailoverState) (k : String) : FailoverState :=
  st.filter (fun p => p.1 != k)

/-- Map.set of the source: bind the key, replacing any previous binding. -/
def setFC (st : FailoverState) (k : String) (c : FailoverConfig) : FailoverState :=
  (k, c) :: eraseFC st k

/-- The configKey computation: session-prefixed key, or the global key. -/
def configKey : Option String → String
  | some s => "session_" ++ s
  | none => "global"

/-- FAILURE_COOLDOWN_MS of the source (30 seconds). -/
def FAILURE_COOLDOWN_MS : Nat := 30000

/-- MAX_FAILURES of the source. -/
def MAX_FAILURES : Nat := 3

/-- JS error descriptor as consumed by isRetryableError: optional numeric
status, optional nested response status, optional code string, optional
message string. -/
structure JsError where
  status : Option Nat
  responseStatus : Option Nat
  code : Option String
  message : Option String
deriving DecidableEq

/-- retryableStatusCodes of the source. -/
def retryableStatusCodes : List Nat := [429, 500, 502, 503, 504, 408, 524]

/-- Truthiness-guarded status check of the source
(error.status and retryableStatusCodes.includes(error.status)). -/
def statusRetryable : Option Nat → Bool
  | some s => s != 0 && retryableStatusCodes.contains s
  | none => false

/-- Like listLeads pat s: pat occurs at the start of s. -/
def listLeads : List Char → List Char → Bool
  | [], _ => true
  | _ :: _, [] => false
  | a :: as, b :: bs => a == b && listLeads as bs

/-- Substring occurrence over char lists (JS String.includes semantics). -/
def listHasSub : List Char → List Char → Bool
  | [], pat => pat.isEmpty
  | c :: rest, pat => listLeads pat (c :: rest) || listHasSub rest pat

/-- JS String.includes. -/
def strContainsSub (s pat : String) : Bool :=
  listHasSub s.data pat.data

/-- JS String.toLowerCase (ASCII-faithful). -/
def strToLower (s : String) : String :=
  String.mk (s.data.map Char.toLower)

/-- Optional-chained message.includes(pat) of the source. -/
def msgContains : Option String → String → Bool
  | some s, pat => strContainsSub s pat
  | none, _ => false

/-- Optional-chained message.toLowerCase().includes(pat) of the source. -/
def msgContainsLower : Option String → String → Bool
  | some s, pat => strContainsSub (strToLower s) pat
  | none, _ => false

/-- FailoverManager.isRetryableError, translated check by check. -/
def isRetryableError (err : Option JsError) : Bool :=
  match err with
  | none => false
  | some e =>
    if statusRetryable e.status then true
    else if statusRetryable e.responseStatus then true
    else if e.code == some "ECONNABORTED" || e.code == some "ETIMEDOUT"
        || msgContains e.message "timeout" then true
    else if e.code == some "ENOTFOUND" || e.code == some "ECONNREFUSED"
        || e.code == some "ECONNRESET" then true
    else if msgContainsLower e.message "rate limit"
        || msgContainsLower e.message "too many requests" then true
    else false

/-- FailoverManager.getAvailableProviders: keep a provider when the failure
streak is zero, or the cooldown has elapsed, or the streak is below the
maximum; the predicate does not depend on the provider itself. -/
def getAvailableProviders (config : FailoverConfig) (now : Nat) : List String :=
  config.providers.filter fun _ =>
    if config.failureCount = 0 ∨ now - config.lastFailureTime > FAILURE_COOLDOWN_MS then true
    else decide (config.failureCount < MAX_FAILURES)

/-- FailoverManager.resetFailoverConfig: recompute the key from the given
session id and delete that binding. -/
def resetFailoverConfig (st : FailoverState) (sessionId : Option String) : FailoverState :=
  eraseFC st (configKey sessionId)

/-- FailoverManager.getNextProvider.  Throws on an empty list, returns the
sole element of a singleton untouched, otherwise resolves or creates the
record, computes the available subset, and either resets (passing the
already-computed configKey to resetFailoverConfig, as the source does) and
returns the first input provider, or rotates within the available subset. -/
def getNextProvider (st : FailoverState) (providers : List String)
    (sessionId : Option String) (now : Nat) : Except String (String × FailoverState) :=
  match providers with
  | [] => Except.error "No providers available"
  | [p] => Except.ok (p, st)
  | p0 :: p1 :: rest =>
    let key := configKey sessionId
    let pair : FailoverConfig × FailoverState :=
      match lookupFC st key with
      | some c => (c, st)
      | none =>
        let c : FailoverConfig :=
          { providers := p0 :: p1 :: rest, currentIndex := 0,
            lastFailureTime := 0, failureCount := 0 }
        (c, setFC st key c)
    let config := pair.1
    let st1 := pair.2
    let available := getAvailableProviders config now
    if available.length = 0 then
      Except.ok (p0, resetFailoverConfig st1 (some key))
    else
      let nextIndex := config.currentIndex % available.length
      let selected := available.getD nextIndex ""
      Except.ok (selected,
        setFC st1 key { config with currentIndex := (config.currentIndex + 1) % available.length })

/-- FailoverManager.recordFailure: no record or non-retryable error leave the
state untouched; a retryable error bumps the streak and stamps the time. -/
def recordFailure (st : FailoverState) (_provider : String) (sessionId : Option String)
    (err : Option JsError) (now : Nat) : FailoverState :=
  match lookupFC st (configKey sessionId) with
  | none => st
  | some config =>
    if isRetryableError err then
      setFC st (configKey sessionId)
        { config with failureCount := config.failureCount + 1, lastFailureTime := now }
    else st

/-- FailoverManager.recordSuccess: reset the streak and the failure time. -/
def recordSuccess (st : FailoverState) (_provider : String)
    (sessionId : Option String) : FailoverState :=
  match lookupFC st (configKey sessionId) with
  | none => st
  | some config =>
    setFC st (configKey sessionId) { config with failureCount := 0, lastFailureTime := 0 }

/-- Sequential driver: run getNextProvider once per timestamp, threading the
state, collecting the returned providers, stopping at the first error. -/
def getNextProviderRun : FailoverState → List String → Option String → List Nat →
    List String × FailoverState
  | st, _, _, [] => ([], st)
  | st, l, sessionId, now :: rest =>
    match getNextProvider st l sessionId now with
    | Except.ok (p, st') =>
      let r := getNextProviderRun st' l sessionId rest
      (p :: r.1, r.2)
    | Except.error _ => ([], st)

/-- Router configuration value of router.ts: undefined, a string, or a
string array. -/
inductive RouterValue where
  | undef
  | str (s : String)
  | arr (l : List String)
deriving DecidableEq

/-- A JS value assignable to req.body.model by the middleware fallback. -/
inductive JsVal where
  | str (s : String)
  | arr (l : List String)
  | undef
deriving DecidableEq

/-- Direct assignment req.body.model = value for a router configuration. -/
def routerValueToJsVal : RouterValue → JsVal
  | RouterValue.undef => JsVal.undef
  | RouterValue.str s => JsVal.str s
  | RouterValue.arr l => JsVal.arr l

/-- getModelFromConfig of router.ts: a falsy configuration (undefined or the
empty string) throws, a non-empty string is returned as is, an empty array
throws, and a non-empty array is resolved through getNextProvider. -/
def getModelFromConfig (routerConfig : RouterValue) (sessionId : Option String)
    (st : FailoverState) (now : Nat) : Except String (String × FailoverState) :=
  match routerConfig with
  | RouterValue.undef => Except.error "No router configuration provided"
  | RouterValue.str s =>
    if s = "" then Except.error "No router configuration provided"
    else Except.ok (s, st)
  | RouterValue.arr l =>
    if l.length = 0 then Except.error "Empty provider array"
    else getNextProvider st l sessionId now

/-- The try/catch of the router middleware around the heuristic chain: on
success assign the chosen model; on an exception resolve the default
configuration directly; if that also throws, assign the first element of a
non-empty default array, else the default value itself. -/
def routerAssignModel (heuristic : Except String String) (defaultCfg : RouterValue)
    (sessionId : Option String) (st : FailoverState) (now : Nat) :
    Except String (JsVal × FailoverState) :=
  match heuristic with
  | Except.ok m => Except.ok (JsVal.str m, st)
  | Except.error _ =>
    match getModelFromConfig defaultCfg sessionId st now with
    | Except.ok (m, st') => Except.ok (JsVal.str m, st')
    | Except.error _ =>
      match defaultCfg with
      | RouterValue.arr (x :: _) => Except.ok (JsVal.str x, st)
      | _ => Except.ok (routerValueToJsVal defaultCfg, st)

/-- Provider descriptor from the configuration: a name and an optional list
of model names. -/
structure ProviderCfg where
  name : String
  models : Option (List String)
deriving DecidableEq

/-- Everything of the char list up to, excluding, the first comma. -/
def takeUntilComma : List Char → List Char
  | [] => []
  | c :: rest => if c == ',' then [] else c :: takeUntilComma rest

/-- Everything of the char list past the first comma (empty when none). -/
def dropPastComma : List Char → List Char
  | [] => []
  | c :: rest => if c == ',' then rest else dropPastComma rest

/-- The destructuring const [provider, model] = s.split(",") of router.ts,
restricted to the two used components. -/
def splitCommaFirstTwo (s : String) : String × String :=
  (String.mk (takeUntilComma s.data),
   String.mk (takeUntilComma (dropPastComma s.data)))

/-- The explicit combined override branch of getUseModel (router.ts lines
98-110), taken when the requested model string contains a comma: find a
configured provider whose lowercased name equals the raw requested provider
substring, within its declared models one whose lowercased name equals the
raw requested model substring, and return the canonical pair, else the raw
requested string.  The guard if (finalProvider && finalModel) of the source
tests JS truthiness: a found but empty-string model name is falsy, so the
raw requested string is returned in that case as well. -/
def getUseModelOverride (Providers : List ProviderCfg) (reqModel : String) : String :=
  let provider := (splitCommaFirstTwo reqModel).1
  let model := (splitCommaFirstTwo reqModel).2
  match Providers.find? (fun p => strToLower p.name == provider) with
  | none => reqModel
  | some fp =>
    match fp.models with
    | none => reqModel
    | some ms =>
      match ms.find? (fun m => strToLower m == model) with
      | none => reqModel
      | some fm => if fm = "" then reqModel else fp.name ++ "," ++ fm

/-- Modelled from the claim wording of C8 for comparison: both the provider
and the model lookups are fully case-insensitive (configured and requested
spellings both lowercased). -/
def claimUseModelOverride (Providers : List ProviderCfg) (reqModel : String) : String :=
  let provider := (splitCommaFirstTwo reqModel).1
  let model := (splitCommaFirstTwo reqModel).2
  match Providers.find? (fun p => strToLower p.name == strToLower provider) with
  | none => reqModel
  | some fp =>
    match fp.models with
    | none => reqModel
    | some ms =>
      match ms.find? (fun m => strToLower m == strToLower model) with
      | none => reqModel
      | some fm => fp.name ++ "," ++ fm

/-- Membership in the retryable status set, as worded by the claim C6. -/
def statusInClaim : Option Nat → Bool
  | some s => retryableStatusCodes.contains s
  | none => false

/-- Membership of the code string in the retryable code set, as worded by
the claim C6. -/
def codeInClaim (o : Option String) : Bool :=
  o == some "ECONNABORTED" || o == some "ETIMEDOUT" || o == some "ENOTFOUND"
    || o == some "ECONNREFUSED" || o == some "ECONNRESET"

/-- Modelled from the claim wording of C6 for comparison: all three message
substring checks are case-insensitive. -/
def claimRetryable (err : Option JsError) : Bool :=
  match err with
  | none => false
  | some e =>
    statusInClaim e.status || statusInClaim e.responseStatus
      || codeInClaim e.code
      || msgContainsLower e.message "timeout"
      || msgContainsLower e.message "rate limit"
      || msgContainsLower e.message "too many requests"

/-- The amended C6 wording: identical to the claim except that the timeout
substring check is case-sensitive, exactly as the source is. -/
def claimRetryableAmended (err : Option JsError) : Bool :=
  match err with
  | none => false
  | some e =>
    statusInClaim e.status || statusInClaim e.responseStatus
      || codeInClaim e.code
      || msgContains e.message "timeout"
      || msgContainsLower e.message "rate limit"
      || msgContainsLower e.message "too many requests"

/-- A concrete retryable error (HTTP 429). -/
def err429 : JsError := ⟨some 429, none, none, none⟩

/-- A concrete non-retryable error (HTTP 404). -/
def err404 : JsError := ⟨some 404, none, none, none⟩

/-- A concrete record whose available subset is empty while the cooldown is
still running: three failures recorded, last one at time 1000. -/
def staleRecord : FailoverConfig :=
  { providers := ["a", "b"], currentIndex := 0, lastFailureTime := 1000, failureCount := 3 }

section HelperLemmas

theorem lookupFC_setFC_self (st : FailoverState) (k : String) (c : FailoverConfig) :
    lookupFC (setFC st k c) k = some c := by
  simp [setFC, lookupFC]

theorem lookupFC_eraseFC_ne (st : FailoverState) (k k' : String) (h : k' ≠ k) :
    lookupFC (eraseFC st k') k = lookupFC st k := by
  induction st with
  | nil => rfl
  | cons hd tl ih =>
    obtain ⟨a, c⟩ := hd
    simp only [eraseFC] at ih ⊢
    by_cases ha : a = k'
    · subst ha
      have hk : (a == k) = false := beq_eq_false_iff_ne.mpr h
      simp [lookupFC, List.filter_cons, hk, ih]
    · have hpa : (a != k') = true := by simpa using ha
      by_cases hak : a = k
      · subst hak
        simp [lookupFC, List.filter_cons, hpa]
      · have hak' : (a == k) = false := beq_eq_false_iff_ne.mpr hak
        simp [lookupFC, List.filter_cons, hpa, hak', ih]

theorem setFC_setFC (st : FailoverState) (k : String) (c c' : FailoverConfig) :
    setFC (setFC st k c) k c' = setFC st k c' := by
  simp [setFC, eraseFC, List.filter_filter]

theorem sessionKey_ne (k : String) : ("session_" ++ k) ≠ k := by
  intro h
  have hl := congrArg String.length h
  rw [String.length_append] at hl
  have : ("session_" : String).length = 8 := rfl
  omega

theorem getAvailable_of_zero (c : FailoverConfig) (now : Nat) (h : c.failureCount = 0) :
    getAvailableProviders c now = c.providers := by
  simp [getAvailableProviders, h]

theorem getNextProvider_existing (st : FailoverState) (p0 p1 : String) (rest : List String)
    (scope : Option String) (now : Nat) (c : FailoverConfig)
    (hc : lookupFC st (configKey scope) = some c) :
    getNextProvider st (p0 :: p1 :: rest) scope now =
      (if (getAvailableProviders c now).length = 0 then
        Except.ok (p0, resetFailoverConfig st (some (configKey scope)))
      else
        Except.ok ((getAvailableProviders c now).getD
            (c.currentIndex % (getAvailableProviders c now).length) "",
          setFC st (configKey scope)
            { c with currentIndex := (c.currentIndex + 1) % (getAvailableProviders c now).length })) := by
  simp only [getNextProvider, hc]

theorem getNextProvider_create (st : FailoverState) (p0 p1 : String) (rest : List String)
    (scope : Option String) (now : Nat)
    (h0 : lookupFC st (configKey scope) = none) :
    getNextProvider st (p0 :: p1 :: rest) scope now =
      Except.ok (p0,
        setFC st (configKey scope)
          { providers := p0 :: p1 :: rest, currentIndex := 1 % (p0 :: p1 :: rest).length,
            lastFailureTime := 0, failureCount := 0 }) := by
  simp only [getNextProvider, h0]
  rw [getAvailable_of_zero _ _ rfl]
  simp [setFC_setFC]

theorem getNextProvider_isOk (st : FailoverState) (l : List String) (scope : Option String)
    (now : Nat) (h : l ≠ []) : ∃ r, getNextProvider st l scope now = Except.ok r := by
  match l with
  | [] => exact absurd rfl h
  | [p] => exact ⟨(p, st), rfl⟩
  | p0 :: p1 :: rest =>
    cases hc : lookupFC st (configKey scope) with
    | none => exact ⟨_, getNextProvider_create st p0 p1 rest scope now hc⟩
    | some c =>
      rw [getNextProvider_existing st p0 p1 rest scope now c hc]
      by_cases hav : (getAvailableProviders c now).length = 0
      · rw [if_pos hav]; exact ⟨_, rfl⟩
      · rw [if_neg hav]; exact ⟨_, rfl⟩

theorem record_failure_retryable (st : FailoverState) (p : String) (scope : Option String)
    (err : Option JsError) (now : Nat) (c : FailoverConfig)
    (hc : lookupFC st (configKey scope) = some c) (hr : isRetryableError err = true) :
    recordFailure st p scope err now
      = setFC st (configKey scope)
          { c with failureCount := c.failureCount + 1, lastFailureTime := now } := by
  unfold recordFailure
  simp only [hc, hr, if_true]

end HelperLemmas

theorem run_cycle_aux (l : List String) (scope : Option String) (hl : 2 ≤ l.length) :
    ∀ (nows : List Nat) (st : FailoverState) (c : FailoverConfig),
      lookupFC st (configKey scope) = some c → c.providers = l → c.failureCount = 0 →
      (getNextProviderRun st l scope nows).1
        = (List.range nows.length).map (fun k => l.getD ((c.currentIndex + k) % l.length) "") := by
  intro nows
  induction nows with
  | nil => intro st c _ _ _; rfl
  | cons now rest ih =>
    intro st c hc hprov h0
    obtain ⟨p0, p1, t, rfl⟩ : ∃ p0 p1 t, l = p0 :: p1 :: t := by
      cases l with
      | nil => simp at hl
      | cons a as =>
        cases as with
        | nil => simp at hl
        | cons b bs => exact ⟨a, b, bs, rfl⟩
    have hav : getAvailableProviders c now = p0 :: p1 :: t := by
      rw [getAvailable_of_zero c now h0, hprov]
    have hstep := getNextProvider_existing st p0 p1 t scope now c hc
    rw [hav, if_neg (by simp)] at hstep
    simp only [getNextProviderRun, hstep]
    have ihh := ih (setFC st (configKey scope)
        { c with currentIndex := (c.currentIndex + 1) % (p0 :: p1 :: t).length })
      { c with currentIndex := (c.currentIndex + 1) % (p0 :: p1 :: t).length }
      (lookupFC_setFC_self _ _ _) hprov h0
    rw [ihh]
    simp only [List.length_cons]
    rw [List.range_succ_eq_map, List.map_cons, List.map_map]
    refine congrArg₂ List.cons ?_ ?_
    · simp
    · refine congrArg (List.map · (List.range rest.length)) ?_
      funext k
      show (p0 :: p1 :: t).getD
          (((c.currentIndex + 1) % (p0 :: p1 :: t).length + k) % (p0 :: p1 :: t).length) ""
        = (p0 :: p1 :: t).getD ((c.currentIndex + Nat.succ k) % (p0 :: p1 :: t).length) ""
      rw [Nat.mod_add_mod]
      have harith : c.currentIndex + 1 + k = c.currentIndex + Nat.succ k := by omega
      rw [harith]

/-- Claim C1: for every candidate list of length at least 2 and any scope,
starting with no record for that scope, sequential getNextProvider calls
return the candidates in list order, cycling through all of them before
repeating any: the k-th call returns candidate k mod length. -/
theorem selectProvider_round_robin (l : List String) (scope : Option String)
    (st : FailoverState) (nows : List Nat)
    (hl : 2 ≤ l.length) (h0 : lookupFC st (configKey scope) = none) :
    (getNextProviderRun st l scope nows).1
      = (List.range nows.length).map (fun k => l.getD (k % l.length) "") := by
  cases nows with
  | nil => rfl
  | cons now rest =>
    obtain ⟨p0, p1, t, rfl⟩ : ∃ p0 p1 t, l = p0 :: p1 :: t := by
      cases l with
      | nil => simp at hl
      | cons a as =>
        cases as with
        | nil => simp at hl
        | cons b bs => exact ⟨a, b, bs, rfl⟩
    have hstep := getNextProvider_create st p0 p1 t scope now h0
    simp only [getNextProviderRun, hstep]
    have ihh := run_cycle_aux (p0 :: p1 :: t) scope hl rest
      (setFC st (configKey scope)
        ⟨p0 :: p1 :: t, 1 % (p0 :: p1 :: t).length, 0, 0⟩)
      ⟨p0 :: p1 :: t, 1 % (p0 :: p1 :: t).length, 0, 0⟩
      (lookupFC_setFC_self _ _ _) rfl rfl
    rw [ihh]
    simp only [List.length_cons]
    rw [List.range_succ_eq_map, List.map_cons, List.map_map]
    refine congrArg₂ List.cons ?_ ?_
    · simp
    · refine congrArg (List.map · (List.range rest.length)) ?_
      funext k
      show (p0 :: p1 :: t).getD
          ((1 % (p0 :: p1 :: t).length + k) % (p0 :: p1 :: t).length) ""
        = (p0 :: p1 :: t).getD (Nat.succ k % (p0 :: p1 :: t).length) ""
      rw [Nat.mod_add_mod]
      have harith : 1 + k = Nat.succ k := by omega
      rw [harith]

/-- Witness for claim C1: candidates a, b, c on scope s1, four sequential
calls return a, b, c, a. -/
theorem selectProvider_round_robin_witness :
    (getNextProviderRun [] ["a", "b", "c"] (some "s1") [0, 0, 0, 0]).1
      = ["a", "b", "c", "a"] := by
  have h := selectProvider_round_robin ["a", "b", "c"] (some "s1") [] [0, 0, 0, 0]
    (by decide) (by decide)
  rw [h]
  rfl

/-- Claim C5: for every one-element candidate list and every scope,
getNextProvider returns that single element and leaves the failover state
store exactly as it was. -/
theorem single_candidate_identity (st : FailoverState) (x : String)
    (scope : Option String) (now : Nat) :
    getNextProvider st [x] scope now = Except.ok (x, st) := rfl

/-- Claim C2: at a lookup on an existing record, a candidate of the record is
in the available subset iff the failure count is 0, or more than 30000 ms
elapsed since the last failure, or the failure count is below 3; equivalently
it is excluded precisely when the count reached 3 and at most 30000 ms
elapsed. -/
theorem available_subset_iff (c : FailoverConfig) (now : Nat) (p : String)
    (hp : p ∈ c.providers) :
    (p ∈ getAvailableProviders c now ↔
      (c.failureCount = 0 ∨ now - c.lastFailureTime > 30000 ∨ c.failureCount < 3))
    ∧ (p ∉ getAvailableProviders c now ↔
      (3 ≤ c.failureCount ∧ now - c.lastFailureTime ≤ 30000)) := by
  have hmem : p ∈ getAvailableProviders c now ↔
      (c.failureCount = 0 ∨ now - c.lastFailureTime > 30000 ∨ c.failureCount < 3) := by
    unfold getAvailableProviders
    rw [List.mem_filter]
    simp only [hp, true_and]
    by_cases hA : (c.failureCount = 0 ∨ now - c.lastFailureTime > FAILURE_COOLDOWN_MS)
    · rw [if_pos hA]
      simp only [FAILURE_COOLDOWN_MS] at hA
      simp only [true_iff]
      omega
    · rw [if_neg hA]
      simp only [FAILURE_COOLDOWN_MS] at hA
      simp only [MAX_FAILURES, decide_eq_true_eq]
      omega
  refine ⟨hmem, ?_⟩
  rw [hmem]
  omega

/-- Claim C7: recordFailure leaves the state store unchanged whenever no
record exists for the scope or the supplied error is non-retryable. -/
theorem record_failure_noop (st : FailoverState) (p : String) (scope : Option String)
    (err : Option JsError) (now : Nat)
    (h : lookupFC st (configKey scope) = none ∨ isRetryableError err = false) :
    recordFailure st p scope err now = st := by
  unfold recordFailure
  rcases h with h | h
  · simp [h]
  · cases hc : lookupFC st (configKey scope) with
    | none => rfl
    | some c => simp [h]

/-- Witness for claim C7: a 404 error against an existing record changes
nothing. -/
theorem record_failure_noop_witness :
    recordFailure [("global", ⟨["a", "b"], 0, 0, 0⟩)] "a" none (some err404) 50
      = [("global", ⟨["a", "b"], 0, 0, 0⟩)] :=
  record_failure_noop _ _ _ _ _ (Or.inr (by decide))

/-- Claim C3 (evaluated at the failing input): with an existing record whose
available subset is empty, getNextProvider returns the first passed candidate
but the scope record is NOT deleted: the reset recomputes the key from the
already-prefixed configKey and deletes the unrelated key
"session_session_s1", so the state is returned unchanged. -/
theorem empty_available_keeps_record :
    getNextProvider [("session_s1", staleRecord)] ["a", "b"] (some "s1") 2000
        = Except.ok ("a", [("session_s1", staleRecord)])
      ∧ getAvailableProviders staleRecord 2000 = []
      ∧ configKey (some (configKey (some "s1"))) = "session_session_s1" := by
  refine ⟨rfl, by decide, rfl⟩

/-- Counterexample for claim C4: after three retryable failures within the
cooldown, the available subset excludes EVERY candidate (it is empty), not no
candidate. -/
theorem max_failures_counterexample :
    lookupFC (recordFailure (recordFailure (recordFailure
        [("session_s", ⟨["a", "b"], 1, 0, 0⟩)] "a" (some "s") (some err429) 100)
        "a" (some "s") (some err429) 200) "a" (some "s") (some err429) 300) "session_s"
      = some ⟨["a", "b"], 1, 300, 3⟩
    ∧ getAvailableProviders ⟨["a", "b"], 1, 300, 3⟩ 400 = []
    ∧ "a" ∉ getAvailableProviders ⟨["a", "b"], 1, 300, 3⟩ 400 := by
  refine ⟨by decide, by decide, by decide⟩

/-- Claim C4 as amended: after recordFailure is called three consecutive
times with a retryable error on a scope whose record had a zero failure
streak, while at most 30000 ms have elapsed since the last failure, the
available subset computed for the record excludes every candidate: it is
empty. -/
theorem max_failures_excludes_all (st : FailoverState) (p : String) (scope : Option String)
    (err : Option JsError) (c : FailoverConfig) (t1 t2 t3 now : Nat)
    (hc : lookupFC st (configKey scope) = some c) (h0 : c.failureCount = 0)
    (hr : isRetryableError err = true) (hcool : now - t3 ≤ 30000) :
    ∃ c', lookupFC (recordFailure (recordFailure (recordFailure st p scope err t1)
        p scope err t2) p scope err t3) (configKey scope) = some c'
      ∧ getAvailableProviders c' now = [] := by
  have s1 := record_failure_retryable st p scope err t1 c hc hr
  have hc1 : lookupFC (recordFailure st p scope err t1) (configKey scope)
      = some ⟨c.providers, c.currentIndex, t1, c.failureCount + 1⟩ := by
    rw [s1]; exact lookupFC_setFC_self _ _ _
  have s2 := record_failure_retryable _ p scope err t2 _ hc1 hr
  have hc2 : lookupFC (recordFailure (recordFailure st p scope err t1) p scope err t2)
      (configKey scope) = some ⟨c.providers, c.currentIndex, t2, c.failureCount + 2⟩ := by
    rw [s2]; exact lookupFC_setFC_self _ _ _
  have s3 := record_failure_retryable _ p scope err t3 _ hc2 hr
  have hc3 : lookupFC (recordFailure (recordFailure (recordFailure st p scope err t1)
      p scope err t2) p scope err t3) (configKey scope)
      = some ⟨c.providers, c.currentIndex, t3, c.failureCount + 3⟩ := by
    rw [s3]; exact lookupFC_setFC_self _ _ _
  refine ⟨_, hc3, ?_⟩
  unfold getAvailableProviders
  rw [List.filter_eq_nil_iff]
  intro a _
  have e1 : (⟨c.providers, c.currentIndex, t3, c.failureCount + 3⟩ : FailoverConfig).failureCount
      = c.failureCount + 3 := rfl
  have e2 : (⟨c.providers, c.currentIndex, t3, c.failureCount + 3⟩ : FailoverConfig).lastFailureTime
      = t3 := rfl
  simp only [e1, e2, FAILURE_COOLDOWN_MS, MAX_FAILURES]
  rw [if_neg (by omega)]
  simp only [decide_eq_true_eq, Bool.not_eq_true]
  omega

/-- Witness for the amended claim C4 at a concrete scope and record. -/
theorem max_failures_excludes_all_witness :
    ∃ c', lookupFC (recordFailure (recordFailure (recordFailure
        [("global", ⟨["a", "b"], 0, 0, 0⟩)] "a" none (some err429) 10)
        "a" none (some err429) 20) "a" none (some err429) 30) (configKey none) = some c'
      ∧ getAvailableProviders c' 40 = [] :=
  max_failures_excludes_all _ "a" none (some err429) ⟨["a", "b"], 0, 0, 0⟩ 10 20 30 40
    (by decide) rfl (by decide) (by decide)

example : getNextProvider [] ["a"] none 0 = Except.ok ("a", []) := rfl

example :
    (getNextProviderRun [] ["a", "b", "c"] (some "s1") [0, 0, 0, 0]).1
      = ["a", "b", "c", "a"] := by decide

example : isRetryableError (some ⟨some 429, none, none, none⟩) = true := by decide

example : isRetryableError (some ⟨none, none, none, some "TIMEOUT"⟩) = false := by decide

example : isRetryableError (some ⟨none, none, none, some "a timeout b"⟩) = true := by decide

example : isRetryableError (some ⟨none, none, none, some "Rate Limit hit"⟩) = true := by decide

/-- Witness for claim C2 at a concrete record and candidate. -/
theorem available_subset_iff_witness :
    ("a" ∈ getAvailableProviders ⟨["a"], 0, 5, 0⟩ 10 ↔ (0 = 0 ∨ 10 - 5 > 30000 ∨ 0 < 3))
    ∧ ("a" ∉ getAvailableProviders ⟨["a"], 0, 5, 0⟩ 10 ↔ (3 ≤ 0 ∧ 10 - 5 ≤ 30000)) :=
  available_subset_iff ⟨["a"], 0, 5, 0⟩ 10 "a" (by decide)

theorem statusRetryable_eq_claim (o : Option Nat) : statusRetryable o = statusInClaim o := by
  cases o with
  | none => rfl
  | some s =>
    show (s != 0 && retryableStatusCodes.contains s) = retryableStatusCodes.contains s
    cases hc : retryableStatusCodes.contains s with
    | false => simp
    | true =>
      by_cases h0 : s = 0
      · subst h0
        exact absurd hc (by decide)
      · have hne : (s != 0) = true := by simpa using h0
        rw [hne]
        rfl

/-- Counterexample for claim C6: a message reading TIMEOUT (upper case) is
classified non-retryable by the code, while the claim wording (a
case-insensitive timeout substring check) classifies it retryable. -/
theorem retryable_timeout_counterexample :
    isRetryableError (some ⟨none, none, none, some "TIMEOUT"⟩) = false
    ∧ claimRetryable (some ⟨none, none, none, some "TIMEOUT"⟩) = true :=
  ⟨by decide, by decide⟩

/-- Claim C6 as amended: the retryable-error predicate agrees exactly with
the claim wording once the timeout message check is case-sensitive (the
rate limit and too many requests checks stay case-insensitive). -/
theorem retryable_error_amended (err : Option JsError) :
    isRetryableError err = claimRetryableAmended err := by
  cases err with
  | none => rfl
  | some e =>
    obtain ⟨s1, s2, cd, ms⟩ := e
    simp only [isRetryableError, claimRetryableAmended, codeInClaim]
    rw [statusRetryable_eq_claim, statusRetryable_eq_claim]
    generalize statusInClaim s1 = x1
    generalize statusInClaim s2 = x2
    generalize (cd == some "ECONNABORTED") = x3
    generalize (cd == some "ETIMEDOUT") = x4
    generalize msgContains ms "timeout" = x5
    generalize (cd == some "ENOTFOUND") = x6
    generalize (cd == some "ECONNREFUSED") = x7
    generalize (cd == some "ECONNRESET") = x8
    generalize msgContainsLower ms "rate limit" = x9
    generalize msgContainsLower ms "too many requests" = x10
    revert x1 x2 x3 x4 x5 x6 x7 x8 x9 x10
    decide

/-- Counterexample for claim C8: with provider OpenRouter declaring model
claude, the request OPENROUTER,claude resolves under the claim wording
(case-insensitive both ways) to the canonical pair, but the code compares
the lowercased configured name against the raw request substring, finds no
provider, and returns the raw string unchanged. -/
theorem use_model_override_counterexample :
    getUseModelOverride [⟨"OpenRouter", some ["claude"]⟩] "OPENROUTER,claude"
        = "OPENROUTER,claude"
    ∧ claimUseModelOverride [⟨"OpenRouter", some ["claude"]⟩] "OPENROUTER,claude"
        = "OpenRouter,claude"
    ∧ ("OPENROUTER,claude" : String) ≠ "OpenRouter,claude" :=
  ⟨by decide, by decide, by decide⟩

/-- Claim C8 as amended: for a requested model containing the separator,
when the provider lookup (first configured provider whose lowercased name
equals the raw requested provider substring) resolves, that provider
declares a model list, the model lookup (first declared model whose
lowercased name equals the raw requested model substring) resolves, and the
matched model name is non-empty (the truthiness guard of the source), the
canonical pair built from the configured spellings is returned; in every
other case (no provider match, no declared model list, no model match, or an
empty-string model match) the raw requested string is returned unchanged,
never an error; so the lookup only matches a lowercase request spelling. -/
theorem use_model_override_amended (Providers : List ProviderCfg) (reqModel : String)
    (_h : strContainsSub reqModel "," = true) :
    (∀ fp ms fm,
        Providers.find? (fun p => strToLower p.name == (splitCommaFirstTwo reqModel).1)
            = some fp →
        fp.models = some ms →
        ms.find? (fun m => strToLower m == (splitCommaFirstTwo reqModel).2) = some fm →
        fm ≠ "" →
        getUseModelOverride Providers reqModel = fp.name ++ "," ++ fm)
    ∧ ((Providers.find? (fun p => strToLower p.name == (splitCommaFirstTwo reqModel).1) = none
        ∨ (∃ fp, Providers.find? (fun p => strToLower p.name == (splitCommaFirstTwo reqModel).1)
              = some fp
            ∧ (fp.models = none
              ∨ ∃ ms, fp.models = some ms
                  ∧ (ms.find? (fun m => strToLower m == (splitCommaFirstTwo reqModel).2) = none
                    ∨ ms.find? (fun m => strToLower m == (splitCommaFirstTwo reqModel).2)
                        = some "")))) →
      getUseModelOverride Providers reqModel = reqModel) := by
  constructor
  · intro fp ms fm h1 h2 h3 h4
    simp [getUseModelOverride, h1, h2, h3, h4]
  · intro hcase
    rcases hcase with h1 | ⟨fp, h1, h2⟩
    · simp [getUseModelOverride, h1]
    · rcases h2 with h2 | ⟨ms, h2, h3⟩
      · simp [getUseModelOverride, h1, h2]
      · rcases h3 with h3 | h3
        · simp [getUseModelOverride, h1, h2, h3]
        · simp [getUseModelOverride, h1, h2, h3]

/-- Witness for the amended claim C8: a lowercase request with a matching
non-empty configured model resolves to the canonical pair. -/
theorem use_model_override_amended_witness :
    getUseModelOverride [⟨"openrouter", some ["modelx"]⟩] "openrouter,modelx"
        = "openrouter,modelx" :=
  (use_model_override_amended [⟨"openrouter", some ["modelx"]⟩] "openrouter,modelx"
      (by decide)).1
    ⟨"openrouter", some ["modelx"]⟩ ["modelx"] "modelx" (by decide) rfl (by decide) (by decide)

/-- Claim C9: when the heuristic chain raises, the middleware resolves the
default configuration directly and always produces an assignment: it never
returns an error; when that resolution succeeds its result is exactly what
is assigned; when it fails, the default value itself is assigned (the
first-element arm applies to a non-empty default array, whose resolution in
fact never fails); a successful heuristic value is assigned as is. -/
theorem router_fallback_assigns (e : String) (d : RouterValue) (scope : Option String)
    (st : FailoverState) (now : Nat) :
    (∃ v, routerAssignModel (Except.error e) d scope st now = Except.ok v)
    ∧ (∀ m st', getModelFromConfig d scope st now = Except.ok (m, st') →
        routerAssignModel (Except.error e) d scope st now
          = Except.ok (JsVal.str m, st'))
    ∧ (∀ e', getModelFromConfig d scope st now = Except.error e' →
        routerAssignModel (Except.error e) d scope st now
          = Except.ok (routerValueToJsVal d, st))
    ∧ (∀ m, routerAssignModel (Except.ok m) d scope st now
        = Except.ok (JsVal.str m, st)) := by
  refine ⟨?_, ?_, ?_, fun m => rfl⟩
  · cases hg : getModelFromConfig d scope st now with
    | ok r =>
      obtain ⟨m, st'⟩ := r
      refine ⟨(JsVal.str m, st'), ?_⟩
      unfold routerAssignModel
      rw [hg]
    | error e' =>
      refine ⟨((match d with
        | RouterValue.arr (x :: _) => (JsVal.str x, st)
        | _ => (routerValueToJsVal d, st)) : JsVal × FailoverState), ?_⟩
      unfold routerAssignModel
      rw [hg]
      cases d with
      | undef => rfl
      | str s => rfl
      | arr l =>
        cases l with
        | nil => rfl
        | cons x xs => rfl
  · intro m st' hg
    unfold routerAssignModel
    rw [hg]
  · intro e' hg
    unfold routerAssignModel
    rw [hg]
    cases d with
    | undef => rfl
    | str s => rfl
    | arr l =>
      cases l with
      | nil => rfl
      | cons x xs =>
        exfalso
        obtain ⟨r, hr⟩ := getNextProvider_isOk st (x :: xs) scope now (by simp)
        simp only [getModelFromConfig] at hg
        rw [if_neg (by simp)] at hg
        rw [hr] at hg
        exact Except.noConfusion hg

/-- Witness for claim C9: a resolvable string default is assigned as the
model after a heuristic failure, and an undefined default makes both tiers
fail, assigning the default value itself, in both cases without an error. -/
theorem router_fallback_assigns_witness :
    routerAssignModel (Except.error "boom") (RouterValue.str "m1") none [] 0
        = Except.ok (JsVal.str "m1", [])
    ∧ routerAssignModel (Except.error "boom") RouterValue.undef none [] 0
        = Except.ok (routerValueToJsVal RouterValue.undef, []) :=
  ⟨(router_fallback_assigns "boom" (RouterValue.str "m1") none [] 0).2.1 "m1" [] rfl,
   (router_fallback_assigns "boom" RouterValue.undef none [] 0).2.2.1
     "No router configuration provided" rfl⟩

/-- Claim C10: with an existing record, a call passing any list of length at
least 2 never replaces or mutates the stored candidates snapshot: when the
available subset is non-empty the returned provider comes from the snapshot
(so possibly absent from the passed list) and the record keeps its
candidates; when the subset is empty the first element of the passed list is
returned and the record, including its snapshot, is still present
afterwards. -/
theorem snapshot_preserved (st : FailoverState) (l : List String) (scope : Option String)
    (now : Nat) (c : FailoverConfig)
    (hc : lookupFC st (configKey scope) = some c) (hl : 2 ≤ l.length) :
    (getAvailableProviders c now ≠ [] →
      ∃ p st', getNextProvider st l scope now = Except.ok (p, st')
        ∧ p ∈ c.providers
        ∧ ∃ c', lookupFC st' (configKey scope) = some c' ∧ c'.providers = c.providers)
    ∧ (getAvailableProviders c now = [] →
      getNextProvider st l scope now
          = Except.ok (l.getD 0 "", resetFailoverConfig st (some (configKey scope)))
        ∧ lookupFC (resetFailoverConfig st (some (configKey scope))) (configKey scope)
          = some c) := by
  obtain ⟨p0, p1, t, rfl⟩ : ∃ p0 p1 t, l = p0 :: p1 :: t := by
    cases l with
    | nil => simp at hl
    | cons a as =>
      cases as with
      | nil => simp at hl
      | cons b bs => exact ⟨a, b, bs, rfl⟩
  have hstep := getNextProvider_existing st p0 p1 t scope now c hc
  constructor
  · intro hne
    have hlen : (getAvailableProviders c now).length ≠ 0 := by
      simpa [List.length_eq_zero] using hne
    rw [if_neg hlen] at hstep
    refine ⟨_, _, hstep, ?_, ⟨_, lookupFC_setFC_self _ _ _, rfl⟩⟩
    have hidx : c.currentIndex % (getAvailableProviders c now).length
        < (getAvailableProviders c now).length :=
      Nat.mod_lt _ (Nat.pos_of_ne_zero hlen)
    have hmem : (getAvailableProviders c now).getD
        (c.currentIndex % (getAvailableProviders c now).length) ""
        ∈ getAvailableProviders c now := by
      rw [List.getD_eq_getElem _ "" hidx]
      exact List.getElem_mem hidx
    exact List.mem_of_mem_filter hmem
  · intro hemp
    have hlen : (getAvailableProviders c now).length = 0 := by
      simp [hemp]
    rw [if_pos hlen] at hstep
    refine ⟨hstep, ?_⟩
    unfold resetFailoverConfig
    have hkey : configKey (some (configKey scope)) = "session_" ++ configKey scope := rfl
    rw [hkey, lookupFC_eraseFC_ne st _ _ (sessionKey_ne (configKey scope))]
    exact hc

/-- Witness for claim C10: a record snapshotting x, y serves a call passing
p, q; the returned provider x is absent from the passed list and the
snapshot is intact. -/
theorem snapshot_preserved_witness :
    (getAvailableProviders ⟨["x", "y"], 0, 0, 0⟩ 0 ≠ [] →
      ∃ p st', getNextProvider [("global", ⟨["x", "y"], 0, 0, 0⟩)] ["p", "q"] none 0
          = Except.ok (p, st')
        ∧ p ∈ (⟨["x", "y"], 0, 0, 0⟩ : FailoverConfig).providers
        ∧ ∃ c', lookupFC st' (configKey none) = some c'
            ∧ c'.providers = (⟨["x", "y"], 0, 0, 0⟩ : FailoverConfig).providers)
    ∧ (getAvailableProviders ⟨["x", "y"], 0, 0, 0⟩ 0 = [] →
      getNextProvider [("global", ⟨["x", "y"], 0, 0, 0⟩)] ["p", "q"] none 0
          = Except.ok (["p", "q"].getD 0 "",
            resetFailoverConfig [("global", ⟨["x", "y"], 0, 0, 0⟩)] (some (configKey none)))
        ∧ lookupFC (resetFailoverConfig [("global", ⟨["x", "y"], 0, 0, 0⟩)]
            (some (configKey none))) (configKey none)
          = some ⟨["x", "y"], 0, 0, 0⟩) :=
  snapshot_preserved [("global", ⟨["x", "y"], 0, 0, 0⟩)] ["p", "q"] none 0
    ⟨["x", "y"], 0, 0, 0⟩ (by decide) (by decide)

example : getUseModelOverride [⟨"P", some [""]⟩] "p," = "p," := by decide
